import Mathlib

/-
Verification of the KidzOut crawler (src/crawler.py) against its
natural-language specification.  The Python code is shallowly embedded:
pure functions become Lean functions, the stateful components
(rate limiter, quality tracker, geocode cache, persisted output file)
become explicit state-passing functions, and the network-facing parts
are driven by explicit outcome parameters.  Machine floats that only ever
hold exact small decimals (rate limits, quality-score thresholds) are
modelled as rationals; geographic coordinates, on which the code does
no arithmetic, are modelled as integers.
-/

/-- Insertion-order-preserving update of a Python dict modelled as an
association list: an existing key is overwritten in place, a new key is
appended at the end (CPython dict semantics). -/
def assocUpdate {α : Type} : List (String × α) → String → α → List (String × α)
  | [], k, v => [(k, v)]
  | (k', v') :: rest, k, v =>
    if k' = k then (k, v) :: rest else (k', v') :: assocUpdate rest k v

theorem lookup_assocUpdate {α : Type} (l : List (String × α)) (k : String) (v : α) :
    (assocUpdate l k v).lookup k = some v := by
  induction l with
  | nil => simp [assocUpdate, List.lookup]
  | cons hd tl ih =>
    by_cases h : hd.1 = k
    · simp [assocUpdate, h, List.lookup]
    · have hne : (k == hd.1) = false := by
        simp [beq_iff_eq]
        exact fun he => h he.symm
      simp [assocUpdate, h, List.lookup, hne, ih]

theorem lookup_assocUpdate_ne {α : Type} (l : List (String × α)) (k k' : String) (v : α)
    (h : k' ≠ k) : (assocUpdate l k v).lookup k' = l.lookup k' := by
  have hb : (k' == k) = false := beq_eq_false_iff_ne.mpr h
  induction l with
  | nil => simp [assocUpdate, List.lookup, hb]
  | cons hd tl ih =>
    by_cases hk : hd.1 = k
    · subst hk
      simp [assocUpdate, List.lookup, hb]
    · simp [assocUpdate, hk, List.lookup, ih]

/-
SessionManager.get (src/crawler.py lines 138-175).

MAX_RETRIES = 3 and RETRY_BACKOFF = [2, 5, 10] are module constants.
One call makes up to MAX_RETRIES attempts; the outcome of attempt `i`
(an HTTP response with a status code and body, or a raised
requests.RequestException) is supplied by the environment function
`outcomes`.  The function returns the payload (None on failure) and the
total number of seconds slept inside the retry loop.
-/

def MAX_RETRIES : Nat := 3

def RETRY_BACKOFF : List Nat := [2, 5, 10]

inductive AttemptOutcome where
  | resp (status : Nat) (body : String)
  | exn
deriving DecidableEq

def sessionGetAux (outcomes : Nat → AttemptOutcome) : Nat → Nat → Option String × Nat
  | 0, _ => (none, 0)
  | fuel + 1, attempt =>
    match outcomes attempt with
    | .resp status body =>
      if status = 200 then (some body, 0)
      else if status = 429 then
        let w := RETRY_BACKOFF.getD (min attempt (RETRY_BACKOFF.length - 1)) 0
        let r := sessionGetAux outcomes fuel (attempt + 1)
        (r.1, w + r.2)
      else if status = 403 ∨ status = 404 then (none, 0)
      else sessionGetAux outcomes fuel (attempt + 1)
    | .exn =>
      if attempt < MAX_RETRIES - 1 then
        let w := RETRY_BACKOFF.getD (min attempt (RETRY_BACKOFF.length - 1)) 0
        let r := sessionGetAux outcomes fuel (attempt + 1)
        (r.1, w + r.2)
      else sessionGetAux outcomes fuel (attempt + 1)

/-- One call of SessionManager.get: runs the `for attempt in range(MAX_RETRIES)`
loop, returning (payload, total backoff seconds slept). -/
def sessionGet (outcomes : Nat → AttemptOutcome) : Option String × Nat :=
  sessionGetAux outcomes MAX_RETRIES 0

/-
SmartRateLimiter (src/crawler.py lines 82-117).  `rate_limits` is never
written anywhere in the module, so the per-domain base always falls back
to RATE_LIMIT_DEFAULT = 2.0; the dict is kept in the model because the
code consults it.  The throttling key is the URL's netloc; the model
takes the domain string directly.
-/

def RATE_LIMIT_DEFAULT : ℚ := 2

structure RateLimiterState where
  rate_limits : List (String × ℚ)
  failure_count : List (String × Nat)
deriving DecidableEq

def failuresOf (st : RateLimiterState) (domain : String) : Nat :=
  (st.failure_count.lookup domain).getD 0

/-- The effective wait interval computed by SmartRateLimiter.wait:
`min(base_limit * (1 + failure_count * 0.5), 10.0)`. -/
def wait_limit (st : RateLimiterState) (domain : String) : ℚ :=
  let base_limit := (st.rate_limits.lookup domain).getD RATE_LIMIT_DEFAULT
  let failure_multiplier := 1 + (failuresOf st domain : ℚ) * (1 / 2)
  min (base_limit * failure_multiplier) 10

def record_failure (st : RateLimiterState) (domain : String) : RateLimiterState :=
  { st with failure_count := assocUpdate st.failure_count domain (failuresOf st domain + 1) }

def record_success (st : RateLimiterState) (domain : String) : RateLimiterState :=
  if 0 < failuresOf st domain then
    { st with failure_count := assocUpdate st.failure_count domain (failuresOf st domain - 1) }
  else st

/-- `n` consecutive recorded failures on one domain. -/
def applyFailures (st : RateLimiterState) (domain : String) (n : Nat) : RateLimiterState :=
  (fun s => record_failure s domain)^[n] st

/-- Second definition, written from the spec's words for the refinement
check: "Effective interval = base_interval * (1 + 0.5 * failure_count),
capped at a maximum (10s)". -/
def spec_effective_interval (base : ℚ) (failure_count : Nat) : ℚ :=
  min (base * (1 + (1 / 2) * (failure_count : ℚ))) 10

theorem failuresOf_applyFailures (st : RateLimiterState) (domain : String) (n : Nat) :
    failuresOf (applyFailures st domain n) domain = failuresOf st domain + n := by
  induction n with
  | zero => simp [applyFailures]
  | succ m ih =>
    have : applyFailures st domain (m + 1)
        = record_failure (applyFailures st domain m) domain := by
      simp [applyFailures, Function.iterate_succ_apply']
    rw [this]
    simp [record_failure, failuresOf, lookup_assocUpdate]
    have := ih
    simp [failuresOf] at this
    omega

theorem rate_limits_applyFailures (st : RateLimiterState) (domain : String) (n : Nat) :
    (applyFailures st domain n).rate_limits = st.rate_limits := by
  induction n with
  | zero => simp [applyFailures]
  | succ m ih =>
    have : applyFailures st domain (m + 1)
        = record_failure (applyFailures st domain m) domain := by
      simp [applyFailures, Function.iterate_succ_apply']
    rw [this]
    simp [record_failure, ih]

/-
Canonical harvested records.  The Python code builds dicts; the fields
every claim touches are carried here as a structure.  Events
(parse_event, harvest_html, harvest_rss, harvest_ical) and locations
(parse_json_ld_location, harvest_locations) share names where the dicts
do.  The CITY_DEFAULT splat, price block and enrichment fields are not
consulted by any claim and are omitted.
-/

structure EventRecord where
  id : String
  name : String
  date : String
  category : String
  description : String
  source : String
  link : String
  lastUpdated : String
deriving DecidableEq

structure LocRecord where
  id : String
  name : String
  address : String
  category : String
  description : String
  source : String
  link : String
  lastUpdated : String
  lat : Option Int := none
  lon : Option Int := none
deriving DecidableEq

/-
stable_id (src/crawler.py lines 425-429) and the inline location id of
parse_json_ld_location / harvest_locations (lines 828 and 887).
sha1_16 (the first 16 hex characters of a SHA-1 digest) is an external
hash; it is passed in as a function parameter, so every theorem below
holds for the real hash as a special case.
-/

def stable_id (sha1_16 : String → String) (title date_iso link : String) : String :=
  "ev-" ++ sha1_16 (title ++ "|" ++ date_iso ++ "|" ++ link)

def location_id (sha1_16 : String → String) (name address link : String) : String :=
  "loc-" ++ sha1_16 (name ++ "|" ++ address ++ "|" ++ link)

/-
A JSON value, as produced by json.loads on an embedded
application/ld+json script.  Numbers are modelled as integers: the
crawler does no arithmetic on them.
-/

inductive Json where
  | str (s : String)
  | num (n : Int)
  | bool (b : Bool)
  | null
  | arr (items : List Json)
  | obj (fields : List (String × Json))

def Json.getField : Json → String → Option Json
  | .obj fields, k => fields.lookup k
  | _, _ => none

def Json.isObjB : Json → Bool
  | .obj _ => true
  | _ => false

/-- Python truthiness of a JSON value. -/
def Json.truthy : Json → Bool
  | .str s => !(s == "")
  | .num n => !(n == 0)
  | .bool b => b
  | .null => false
  | .arr items => !items.isEmpty
  | .obj fields => !fields.isEmpty

/-- Python str() of a JSON value.  Scalars are rendered exactly; the
repr of nested containers is abbreviated, since no claim exercises a
container in a string position. -/
def Json.pyStr : Json → String
  | .str s => s
  | .num n => toString n
  | .bool b => if b then "True" else "False"
  | .null => "None"
  | .arr _ => "[...]"
  | .obj _ => "<dict>"

/-- The value compared by `data.get('@type') in [...]`: only a string
@type can equal a string list member. -/
def typeNameOf (j : Json) : Option String :=
  match j.getField "@type" with
  | some (.str s) => some s
  | _ => none

def typeIn (j : Json) (ts : List String) : Bool :=
  match typeNameOf j with
  | some s => ts.contains s
  | none => false

/-
parse_json_ld_location (src/crawler.py lines 860-914).  Runs inside a
try/except returning None; the exception paths the model reproduces are
string slicing on a non-string name or description and float() on a
truthy non-numeric geo coordinate.  String-encoded numeric coordinates
(which Python float() would accept) and the openingHours block are not
modelled: no claim concerns them.
-/

/-- Python string slicing text[:n]: the first n characters (modelled on
the character list; String.take computes the same string). -/
def pyTake (s : String) (n : Nat) : String := ⟨s.data.take n⟩

def LOC_TYPES : List String := ["Place", "LocalBusiness", "TouristAttraction"]

def LOC_LIST_TYPES : List String := ["Place", "LocalBusiness"]

def parse_json_ld_location (sha1_16 : String → String) (data : Json)
    (source_url now_iso : String) : Option LocRecord :=
  match (data.getField "name").getD (.str "") with
  | .str name =>
    if name = "" then none
    else
      let address_data := (data.getField "address").getD (.obj [])
      let address :=
        match address_data with
        | .obj afs =>
          let street := (afs.lookup "streetAddress").getD (.str "")
          let postal := (afs.lookup "postalCode").getD (.str "")
          let city := (afs.lookup "addressLocality").getD (.str "München")
          if street.truthy then street.pyStr ++ ", " ++ postal.pyStr ++ " " ++ city.pyStr
          else city.pyStr
        | v => if v.truthy then v.pyStr else ""
      match (data.getField "description").getD (.str "") with
      | .str desc =>
        let link := ((data.getField "url").getD (.str source_url)).pyStr
        let geo := (data.getField "geo").getD (.obj [])
        let latJ := match geo with | .obj gfs => gfs.lookup "latitude" | _ => none
        let lonJ := match geo with | .obj gfs => gfs.lookup "longitude" | _ => none
        let coords : Option (Option Int × Option Int) :=
          if (latJ.map Json.truthy).getD false && (lonJ.map Json.truthy).getD false then
            match latJ, lonJ with
            | some (.num la), some (.num lo) => some (some la, some lo)
            | _, _ => none
          else some (none, none)
        match coords with
        | none => none
        | some (la, lo) =>
          some { id := location_id sha1_16 name address link,
                 name := pyTake name 200,
                 address := address,
                 category := "location",
                 description := pyTake desc 500,
                 source := source_url,
                 link := link,
                 lastUpdated := now_iso,
                 lat := la, lon := lo }
      | _ => none
  | _ => none

/-
The structured-data pass of harvest_locations (src/crawler.py lines
701-728): for each <script type="application/ld+json"> whose contents
parsed (a failed json.loads is `none` and is skipped), a dict is
accepted when its own @type is Place/LocalBusiness/TouristAttraction,
and each dict inside a top-level list is accepted when its @type is
Place/LocalBusiness.
-/

def scriptLocs (sha1_16 : String → String) (source_url now_iso : String) :
    Json → List LocRecord
  | .obj fs =>
    if typeIn (.obj fs) LOC_TYPES then
      (parse_json_ld_location sha1_16 (.obj fs) source_url now_iso).toList
    else []
  | .arr items =>
    items.foldl
      (fun acc it =>
        if it.isObjB && typeIn it LOC_LIST_TYPES then
          acc ++ (parse_json_ld_location sha1_16 it source_url now_iso).toList
        else acc) []
  | _ => []

def harvest_locations_jsonld (sha1_16 : String → String) (source_url now_iso : String)
    (scripts : List (Option Json)) : List LocRecord :=
  scripts.foldl
    (fun acc s =>
      match s with
      | none => acc
      | some d => acc ++ scriptLocs sha1_16 source_url now_iso d) []

/-
SourceQualityTracker (src/crawler.py lines 251-292).  The stats dict is
keyed by source URL; 0.2 is the exact rational 1/5 (success counts are
small integers, so the float comparison agrees with the rational one on
every reachable state).
-/

structure QEntry where
  attempts : Nat
  successes : Nat
  total_events : Nat
  last_success : Option String
deriving DecidableEq

def qRecord (stats : List (String × QEntry)) (url : String) (success : Bool)
    (events_found : Nat) (now_iso : String) : List (String × QEntry) :=
  let e := (stats.lookup url).getD ⟨0, 0, 0, none⟩
  let e' :=
    if success then
      { attempts := e.attempts + 1, successes := e.successes + 1,
        total_events := e.total_events + events_found, last_success := some now_iso }
    else { e with attempts := e.attempts + 1 }
  assocUpdate stats url e'

def get_quality_score (stats : List (String × QEntry)) (url : String) : ℚ :=
  match stats.lookup url with
  | none => 1 / 2
  | some e => if e.attempts = 0 then 1 / 2 else (e.successes : ℚ) / (e.attempts : ℚ)

def should_skip (stats : List (String × QEntry)) (url : String) : Bool :=
  match stats.lookup url with
  | none => false
  | some e => decide (10 ≤ e.attempts) && decide (get_quality_score stats url < 1 / 5)

def qAttempts (stats : List (String × QEntry)) (url : String) : Nat :=
  ((stats.lookup url).getD ⟨0, 0, 0, none⟩).attempts

/-
The quality-tracker footprint of one dispatched source in crawl_source
(src/crawler.py lines 1215-1248).  An "html" source goes through
harvest_html (lines 920-1095): should_skip is consulted before any
fetch, a failed fetch or exception records (False, 0), and a completed
parse records (len(events) > 0, len(events)).  "rss" sources
(harvest_rss, lines 1101-1140) and "ical" sources (harvest_ical, lines
1146-1198) neither consult should_skip nor call record.  The pair
returned is (updated stats, whether the source was fetched).
-/

inductive SourceKind where
  | html
  | rss
  | ical
deriving DecidableEq

def crawl_source_stats (kind : SourceKind) (url : String)
    (stats : List (String × QEntry)) (fetch_ok : Bool) (events_found : Nat)
    (now_iso : String) : List (String × QEntry) × Bool :=
  match kind with
  | .html =>
    if should_skip stats url then (stats, false)
    else if fetch_ok then (qRecord stats url (decide (0 < events_found)) events_found now_iso, true)
    else (qRecord stats url false 0 now_iso, true)
  | .rss => (stats, true)
  | .ical => (stats, true)

/-
Geocoder.geocode (src/crawler.py lines 318-367).  The cache maps the
normalized key to `some (lat, lon)` for a hit or `none` for the
"not found" tombstone (Python caches None).  One call makes at most one
network request, whose outcome is the `net` parameter: a found
coordinate pair, an empty 200 result, a non-200 status (both of which
fall through to the tombstone branch), or a raised exception (which
returns None without touching the cache).  save_cache persists the
cache immediately after each write; persistence is implicit in the
returned state.  The third component counts network requests performed.
-/

structure GeoCache where
  cache : List (String × Option (Int × Int))
deriving DecidableEq

inductive GeoNet where
  | found (lat lon : Int)
  | notFound
  | badStatus
  | exn
deriving DecidableEq

def geocode_key (address city : String) : String :=
  ((address ++ ", " ++ city ++ ", Germany").map Char.toLower).trim

def geocode (st : GeoCache) (address city : String) (net : GeoNet) :
    Option (Int × Int) × GeoCache × Nat :=
  let key := geocode_key address city
  match st.cache.lookup key with
  | some (some c) => (some c, st, 0)
  | some none => (none, st, 0)
  | none =>
    match net with
    | .found lat lon =>
      (some (lat, lon), ⟨assocUpdate st.cache key (some (lat, lon))⟩, 1)
    | .notFound => (none, ⟨assocUpdate st.cache key none⟩, 1)
    | .badStatus => (none, ⟨assocUpdate st.cache key none⟩, 1)
    | .exn => (none, st, 1)

/-
normalize_date (src/crawler.py lines 431-456).  dateparser.parse is the
external dateutil parser: it is passed in as an oracle returning
`some dt` on success and `none` when it raises or returns None (both
paths resolve to datetime.now(timezone.utc), the `now` parameter).
A Python datetime always satisfies 1 <= year <= 9999, so the four-digit
rendering below coincides with date.isoformat() on every value the code
can see.  `datetime.date()` drops the time and tzinfo without
conversion, so the civil date of an aware datetime is its own calendar
date.  The tz field is a UTC offset in minutes; `none` is a naive
datetime.
-/

structure PyDateTime where
  year : Nat
  month : Nat
  day : Nat
  tz : Option Int
deriving DecidableEq

inductive NormInput where
  | dt (v : PyDateTime)
  | str (s : String)
  | noneV
deriving DecidableEq

def GERMAN_MONTHS : List (String × String) :=
  [("Januar", "January"), ("Februar", "February"), ("März", "March"),
   ("April", "April"), ("Mai", "May"), ("Juni", "June"),
   ("Juli", "July"), ("August", "August"), ("September", "September"),
   ("Oktober", "October"), ("November", "November"), ("Dezember", "December")]

def germanReplace (s : String) : String :=
  GERMAN_MONTHS.foldl (fun acc p => acc.replace p.1 p.2) s

def digitChar (n : Nat) : Char := Char.ofNat (48 + n % 10)

/-- date.isoformat() of a (valid-range) Python date: YYYY-MM-DD. -/
def dateIso (y m d : Nat) : String :=
  ⟨[digitChar (y / 1000), digitChar (y / 100), digitChar (y / 10), digitChar y, '-',
    digitChar (m / 10), digitChar m, '-', digitChar (d / 10), digitChar d]⟩

/-- A syntactically valid civil-date string: ten characters, digits in
the date positions, dashes after the year and month. -/
def isValidCivilDate (s : String) : Bool :=
  match s.toList with
  | [c1, c2, c3, c4, h1, c5, c6, h2, c7, c8] =>
    c1.isDigit && c2.isDigit && c3.isDigit && c4.isDigit && (h1 == '-') &&
    c5.isDigit && c6.isDigit && (h2 == '-') && c7.isDigit && c8.isDigit
  | _ => false

def normalize_date (parse : String → Option PyDateTime) (now : PyDateTime)
    (value : NormInput) : String :=
  let dt : PyDateTime :=
    match value with
    | .dt v => v
    | .str s =>
      match parse (germanReplace s) with
      | some d => d
      | none => now
    | .noneV =>
      match parse (germanReplace "None") with
      | some d => d
      | none => now
  let dt2 := if dt.tz = none then { dt with tz := some 0 } else dt
  dateIso dt2.year dt2.month dt2.day

/-
short (src/crawler.py lines 483-485):
    text = (text or "").strip().replace("\r", " ").replace("\n", " ")
    return text if len(text) <= limit else text[: limit - 1] + "…"
Modelled on character lists.  Char.isWhitespace covers the ASCII
whitespace str.strip removes; the `text or ""` guard is the identity on
strings (a falsy string is "" and strips to "").  For limit = 0 the
Python slice text[:-1] drops the final character; every call site
passes a positive limit.
-/

def stripChars (l : List Char) : List Char :=
  ((l.dropWhile Char.isWhitespace).reverse.dropWhile Char.isWhitespace).reverse

def replaceCR (c : Char) : Char := if c = '\r' then ' ' else c

def replaceLF (c : Char) : Char := if c = '\n' then ' ' else c

def cleanChars (l : List Char) : List Char :=
  ((stripChars l).map replaceCR).map replaceLF

def short (text : String) (limit : Nat) : String :=
  if (cleanChars text.toList).length ≤ limit then ⟨cleanChars text.toList⟩
  else ⟨(cleanChars text.toList).take
          (if limit = 0 then (cleanChars text.toList).length - 1 else limit - 1) ++ ['…']⟩

/-- Head and last characters (when present) are not whitespace. -/
def cleanEnds (l : List Char) : Bool :=
  (l.head?.all fun c => !c.isWhitespace) && (l.getLast?.all fun c => !c.isWhitespace)

def noCRLF (l : List Char) : Bool :=
  l.all fun c => !(c == '\r') && !(c == '\n')

/-
The event merge/dedup loop of get_events_from_all_sources
(src/crawler.py lines 1293-1300): a dict keyed by
f"{name[:30]}_{date}", where a later record replaces the stored one
only when its description is strictly longer; list(dedup.values())
returns values in key first-insertion order.
-/

def dedup_key (ev : EventRecord) : String := pyTake ev.name 30 ++ "_" ++ ev.date

def dedupStep (m : List (String × EventRecord)) (ev : EventRecord) :
    List (String × EventRecord) :=
  match m.lookup (dedup_key ev) with
  | none => assocUpdate m (dedup_key ev) ev
  | some old =>
    if old.description.length < ev.description.length then
      assocUpdate m (dedup_key ev) ev
    else m

def dedup_events (evs : List EventRecord) : List EventRecord :=
  (evs.foldl dedupStep []).map Prod.snd

/-
The persistence step of main (src/crawler.py lines 1395-1432).  Python's
sorted() is a stable ascending sort by key; it is modelled by a stable
insertion sort.  Events are keyed by (date, name), locations by name.
-/

def insertSorted {α : Type} (le : α → α → Bool) (x : α) : List α → List α
  | [] => [x]
  | y :: ys => if le x y then x :: y :: ys else y :: insertSorted le x ys

def sortByKey {α : Type} (le : α → α → Bool) (l : List α) : List α :=
  l.foldr (insertSorted le) []

def eventLe (e1 e2 : EventRecord) : Bool :=
  if e1.date = e2.date then decide (e1.name ≤ e2.name) else decide (e1.date ≤ e2.date)

def locLe (l1 l2 : LocRecord) : Bool := decide (l1.name ≤ l2.name)

structure PersistedData where
  events : List EventRecord
  locations : List LocRecord
  totalEvents : Option Nat
  totalLocations : Option Nat
  lastCrawled : Option String
  metaTotalLocations : Option Nat
  metaTotalEvents : Option Nat
deriving DecidableEq

/-- The tail of main(): given the previously persisted output (or the
`{"locations": [], "events": []}` default when the file was absent or
unreadable), the manual events, the crawled events and the crawled
locations, produce the object written back to OUTPUT_FILE.  The events
and locations lists are replaced only when their replacement is
non-empty; lastCrawled and the metadata totals are always rewritten. -/
def applyRun (prev : PersistedData) (manual_events crawled_events : List EventRecord)
    (crawled_locations : List LocRecord) (now_iso : String) : PersistedData :=
  let all_events := manual_events ++ crawled_events
  let d1 :=
    if all_events.isEmpty then prev
    else { prev with events := sortByKey eventLe all_events,
                     totalEvents := some all_events.length }
  let d2 :=
    if crawled_locations.isEmpty then d1
    else { d1 with locations := sortByKey locLe crawled_locations,
                   totalLocations := some crawled_locations.length }
  { d2 with lastCrawled := some now_iso,
            metaTotalLocations := some d2.locations.length,
            metaTotalEvents := some all_events.length }

/-- C2: a run that harvests zero records (no manual events, no crawled
events, no crawled locations) leaves the events and locations lists of
the previously persisted output unchanged; a pre-existing output of 5
records therefore still holds 5 records.  Only lastCrawled and the
metadata block are rewritten. -/
theorem zero_harvest_preserves_output (prev : PersistedData) (now_iso : String) :
    (applyRun prev [] [] [] now_iso).events = prev.events ∧
    (applyRun prev [] [] [] now_iso).locations = prev.locations := by
  simp [applyRun]

/-- C6: the Domain Throttle's wait interval equals
base_interval * (1 + 0.5 * failure_count) capped at 10 seconds (the
spec-side formula spec_effective_interval); after n consecutive
recorded failures it is non-decreasing in n and never exceeds the
cap. -/
theorem throttle_interval_formula (st : RateLimiterState) (domain : String) (m n : Nat) :
    wait_limit st domain
      = spec_effective_interval ((st.rate_limits.lookup domain).getD RATE_LIMIT_DEFAULT)
          (failuresOf st domain)
    ∧ (0 ≤ (st.rate_limits.lookup domain).getD RATE_LIMIT_DEFAULT → m ≤ n →
        wait_limit (applyFailures st domain m) domain
          ≤ wait_limit (applyFailures st domain n) domain)
    ∧ wait_limit (applyFailures st domain n) domain ≤ 10 := by
  refine ⟨?_, ?_, ?_⟩
  · simp only [wait_limit, spec_effective_interval]
    ring_nf
  · intro hb hmn
    simp only [wait_limit, rate_limits_applyFailures, failuresOf_applyFailures]
    refine min_le_min ?_ le_rfl
    refine mul_le_mul_of_nonneg_left ?_ hb
    have hc : ((failuresOf st domain + m : Nat) : ℚ) ≤ ((failuresOf st domain + n : Nat) : ℚ) := by
      exact_mod_cast Nat.add_le_add_left hmn _
    nlinarith
  · simp only [wait_limit]
    exact min_le_right _ _

/-- C6 witness: with the default base interval, the wait after one
recorded failure is at most the wait after three. -/
theorem throttle_interval_witness :
    wait_limit (applyFailures ⟨[], []⟩ "example.org" 1) "example.org"
      ≤ wait_limit (applyFailures ⟨[], []⟩ "example.org" 3) "example.org" :=
  (throttle_interval_formula ⟨[], []⟩ "example.org" 1 3).2.1
    (by norm_num [List.lookup, RATE_LIMIT_DEFAULT]) (by norm_num)

/-- C7: two harvested records with the same 30-character name prefix and
the same date collapse to exactly one merged record, the one with the
strictly longer description; with equal description lengths the
earliest-seen record is kept. -/
theorem dedup_keeps_longer_description (r1 r2 : EventRecord)
    (hn : pyTake r1.name 30 = pyTake r2.name 30) (hd : r1.date = r2.date) :
    dedup_events [r1, r2]
      = [if r1.description.length < r2.description.length then r2 else r1] := by
  have hkey : dedup_key r2 = dedup_key r1 := by
    unfold dedup_key
    rw [← hn, ← hd]
  have h2 : dedupStep [] r1 = [(dedup_key r1, r1)] := by
    simp [dedupStep, List.lookup, assocUpdate]
  have h3 : List.lookup (dedup_key r2) [(dedup_key r1, r1)] = some r1 := by
    rw [hkey]; simp [List.lookup]
  have h4 : dedupStep [(dedup_key r1, r1)] r2
      = if r1.description.length < r2.description.length
        then [(dedup_key r2, r2)] else [(dedup_key r1, r1)] := by
    simp only [dedupStep, h3]
    by_cases hlen : r1.description.length < r2.description.length
    · rw [if_pos hlen, if_pos hlen, hkey]
      simp [assocUpdate]
    · rw [if_neg hlen, if_neg hlen]
  simp only [dedup_events, List.foldl_cons, List.foldl_nil, h2, h4]
  by_cases hlen : r1.description.length < r2.description.length
  · rw [if_pos hlen, if_pos hlen]
    rfl
  · rw [if_neg hlen, if_neg hlen]
    rfl

/-- C7 witness: two concrete records sharing name prefix and date merge
to the one with the longer description. -/
theorem dedup_keeps_longer_description_witness :
    dedup_events
      [⟨"ev-1", "Sommerfest", "2024-05-01", "festival", "kurz", "s", "l", "t"⟩,
       ⟨"ev-2", "Sommerfest", "2024-05-01", "festival", "eine deutlich laengere Beschreibung", "s", "l", "t"⟩]
      = [⟨"ev-2", "Sommerfest", "2024-05-01", "festival", "eine deutlich laengere Beschreibung", "s", "l", "t"⟩] := by
  have h := dedup_keeps_longer_description
    ⟨"ev-1", "Sommerfest", "2024-05-01", "festival", "kurz", "s", "l", "t"⟩
    ⟨"ev-2", "Sommerfest", "2024-05-01", "festival", "eine deutlich laengere Beschreibung", "s", "l", "t"⟩
    rfl rfl
  rw [h, if_pos (by decide)]

/-- C1 counterexample: with MAX_RETRIES = 3, three consecutive 429
responses exhaust the attempt loop before the 200 is ever requested:
get returns None (not the 200 payload) after sleeping 2 + 5 + 10 = 17
seconds. -/
theorem fetcher_three_429_counterexample :
    sessionGet (fun n => if n < 3 then .resp 429 "busy" else .resp 200 "payload")
      = (none, 17) := by
  rfl

/-- C1 amended: whenever the first three attempts all see a 429
response, get returns no payload and the total backoff wait equals the
sum of the first three backoff-table entries (each retry index clamped
to the table length). -/
theorem fetcher_three_429_amended (outcomes : Nat → AttemptOutcome) (b0 b1 b2 : String)
    (h0 : outcomes 0 = .resp 429 b0) (h1 : outcomes 1 = .resp 429 b1)
    (h2 : outcomes 2 = .resp 429 b2) :
    sessionGet outcomes = (none, (RETRY_BACKOFF.take 3).sum) := by
  have hsum : (RETRY_BACKOFF.take 3).sum = 17 := rfl
  rw [hsum]
  show sessionGetAux outcomes (2 + 1) 0 = (none, 17)
  simp [sessionGetAux, h0, h1, h2, RETRY_BACKOFF, MAX_RETRIES]

/-- C1 witness: a concrete outcome sequence of three 429s (followed by
a 200 that is never reached) satisfies the amended statement. -/
theorem fetcher_three_429_witness :
    sessionGet (fun n => if n < 3 then .resp 429 "slow down" else .resp 200 "late")
      = (none, (RETRY_BACKOFF.take 3).sum) :=
  fetcher_three_429_amended _ "slow down" "slow down" "slow down" rfl rfl rfl

/-- C4 counterexample: an RSS source's first dispatch creates no quality
tracker entry, and an iCal source whose entry satisfies the skip
condition (10 attempts, 0 successes) is still fetched with its stats
untouched — RSS and iCal harvesting never consult or update the
tracker. -/
theorem tracker_rss_ical_counterexample :
    crawl_source_stats .rss "https://feed.example" [] true 3 "2024-01-01T00:00:00+00:00"
      = ([], true)
    ∧ should_skip [("https://cal.example", ⟨10, 0, 0, none⟩)] "https://cal.example" = true
    ∧ crawl_source_stats .ical "https://cal.example"
        [("https://cal.example", ⟨10, 0, 0, none⟩)] true 2 "2024-01-01T00:00:00+00:00"
      = ([("https://cal.example", ⟨10, 0, 0, none⟩)], true) := by
  refine ⟨rfl, ?_, rfl⟩
  simp only [should_skip, List.lookup, get_quality_score]
  norm_num

/-- C4 amended: only HTML sources are quality-tracked.  For an HTML
source the entry is created on the first attempt and its attempts
counter is incremented after every non-skipped attempt, and a source
satisfying the skip condition is not fetched; RSS and iCal sources are
dispatched without consulting or updating the tracker. -/
theorem tracker_html_only (stats : List (String × QEntry)) (url : String)
    (fetch_ok : Bool) (events_found : Nat) (now_iso : String) :
    (should_skip stats url = true →
      crawl_source_stats .html url stats fetch_ok events_found now_iso = (stats, false))
    ∧ (should_skip stats url = false →
        (crawl_source_stats .html url stats fetch_ok events_found now_iso).2 = true
        ∧ qAttempts (crawl_source_stats .html url stats fetch_ok events_found now_iso).1 url
            = qAttempts stats url + 1
        ∧ ((crawl_source_stats .html url stats fetch_ok events_found now_iso).1.lookup url).isSome
            = true)
    ∧ crawl_source_stats .rss url stats fetch_ok events_found now_iso = (stats, true)
    ∧ crawl_source_stats .ical url stats fetch_ok events_found now_iso = (stats, true) := by
  refine ⟨?_, ?_, rfl, rfl⟩
  · intro hskip
    simp [crawl_source_stats, hskip]
  · intro hskip
    have hrec : ∀ success n,
        qAttempts (qRecord stats url success n now_iso) url = qAttempts stats url + 1 ∧
        ((qRecord stats url success n now_iso).lookup url).isSome = true := by
      intro success n
      cases success <;>
        simp [qRecord, qAttempts, lookup_assocUpdate]
    cases fetch_ok <;>
      simp [crawl_source_stats, hskip, hrec true events_found, hrec false 0,
        (hrec true events_found).1, (hrec true events_found).2,
        (hrec false 0).1, (hrec false 0).2, hrec]

/-- C4 witness: a fresh HTML source gets an entry with one attempt on
its first dispatch. -/
theorem tracker_html_only_witness :
    qAttempts (crawl_source_stats .html "https://page.example" [] true 2 "t").1
        "https://page.example" = 0 + 1
    ∧ ((crawl_source_stats .html "https://page.example" [] true 2 "t").1.lookup
        "https://page.example").isSome = true := by
  have h := (tracker_html_only [] "https://page.example" true 2 "t").2.1 rfl
  exact ⟨h.2.1, h.2.2⟩

/-- C5 counterexample: when the first geocode call raises a transport
exception, nothing is cached, so a second call with the identical pair
performs a network request (not zero) and can return a different
result. -/
theorem geocode_exception_counterexample :
    (geocode ⟨[]⟩ "Marienplatz 1" "München" .exn).2.1 = (⟨[]⟩ : GeoCache)
    ∧ (geocode (geocode ⟨[]⟩ "Marienplatz 1" "München" .exn).2.1
        "Marienplatz 1" "München" (.found 48 11)).2.2 = 1
    ∧ (geocode (geocode ⟨[]⟩ "Marienplatz 1" "München" .exn).2.1
        "Marienplatz 1" "München" (.found 48 11)).1
      ≠ (geocode ⟨[]⟩ "Marienplatz 1" "München" .exn).1 := by
  refine ⟨rfl, rfl, ?_⟩
  decide

/-- C5 amended: provided the first geocode call completed (a found
result, an empty 200 result or a non-200 status — anything but a raised
exception), a second call with the identical address-and-city pair
performs zero network requests and returns the same result, including
the tombstoned "not found". -/
theorem geocode_second_call_cached (st : GeoCache) (address city : String)
    (net1 net2 : GeoNet) (h : net1 ≠ GeoNet.exn) :
    geocode (geocode st address city net1).2.1 address city net2
      = ((geocode st address city net1).1, (geocode st address city net1).2.1, 0) := by
  unfold geocode
  cases hc : (st.cache.lookup (geocode_key address city)) with
  | some c =>
    cases c <;> simp [hc]
  | none =>
    cases net1 with
    | found lat lon => simp [hc, lookup_assocUpdate]
    | notFound => simp [hc, lookup_assocUpdate]
    | badStatus => simp [hc, lookup_assocUpdate]
    | exn => exact absurd rfl h

/-- C5 witness: after a first call that recorded a tombstone, the
second identical call does no network request and again answers "not
found". -/
theorem geocode_second_call_witness :
    geocode (geocode ⟨[]⟩ "Unbekannte Straße 99" "München" .notFound).2.1
        "Unbekannte Straße 99" "München" (.found 48 11)
      = ((geocode ⟨[]⟩ "Unbekannte Straße 99" "München" .notFound).1,
         (geocode ⟨[]⟩ "Unbekannte Straße 99" "München" .notFound).2.1, 0) :=
  geocode_second_call_cached ⟨[]⟩ "Unbekannte Straße 99" "München" .notFound
    (.found 48 11) (by decide)

/-- Every record parse_json_ld_location returns carries an id built by
location_id. -/
theorem parse_json_ld_location_id (sha1_16 : String → String) (data : Json)
    (source_url now_iso : String) (r : LocRecord)
    (hp : parse_json_ld_location sha1_16 data source_url now_iso = some r) :
    ∃ n a l, r.id = location_id sha1_16 n a l := by
  unfold parse_json_ld_location at hp
  dsimp only at hp
  repeat' split at hp
  all_goals first
    | exact ⟨_, _, _, (congrArg LocRecord.id (Option.some.inj hp)).symm⟩
    | simp at hp

/-- C10: every event id built by stable_id begins with "ev-", every
location id — including the id of any record parse_json_ld_location
returns — begins with "loc-", and an event id is never equal to a
location id, whatever the hash function and the inputs. -/
theorem event_location_ids_disjoint (sha1_16 : String → String)
    (title date_iso link name address link' : String)
    (data : Json) (source_url now_iso : String) (r : LocRecord) :
    (stable_id sha1_16 title date_iso link).data.take 3 = "ev-".data
    ∧ (location_id sha1_16 name address link').data.take 4 = "loc-".data
    ∧ (parse_json_ld_location sha1_16 data source_url now_iso = some r →
        r.id.data.take 4 = "loc-".data)
    ∧ stable_id sha1_16 title date_iso link ≠ location_id sha1_16 name address link' := by
  have hev : ∀ s : String, ("ev-" ++ s).data.take 3 = "ev-".data := by
    intro s
    rw [String.data_append]
    rfl
  have hloc : ∀ s : String, ("loc-" ++ s).data.take 4 = "loc-".data := by
    intro s
    rw [String.data_append]
    rfl
  refine ⟨hev _, hloc _, ?_, ?_⟩
  · intro hp
    obtain ⟨n, a, l, hid⟩ := parse_json_ld_location_id sha1_16 data source_url now_iso r hp
    rw [hid]
    exact hloc _
  · intro he
    have hd := congrArg String.data he
    rw [stable_id, location_id, String.data_append, String.data_append] at hd
    have h2 := congrArg (fun l => l.head?) hd
    simp at h2

/-- C10 witness: a concrete structured-data Place parses to a record
whose id starts with "loc-". -/
theorem event_location_ids_witness :
    ((parse_json_ld_location (fun s => s)
        (.obj [("@type", Json.str "Place"), ("name", Json.str "Westpark")])
        "https://ex.org" "2024-01-01T00:00:00+00:00").getD
      ⟨"", "", "", "", "", "", "", "", none, none⟩).id.data.take 4 = "loc-".data := by
  have h := (event_location_ids_disjoint (fun s => s) "t" "d" "l" "n" "a" "l2"
      (.obj [("@type", Json.str "Place"), ("name", Json.str "Westpark")])
      "https://ex.org" "2024-01-01T00:00:00+00:00"
      ⟨"loc-Westpark|München|https://ex.org", "Westpark", "München", "location", "",
       "https://ex.org", "https://ex.org", "2024-01-01T00:00:00+00:00", none, none⟩).2.2.1
  exact h (by decide)

theorem mem_foldl_append {α β : Type} (g : β → List α) (l : List β) (acc : List α) (x : α) :
    x ∈ l.foldl (fun a b => a ++ g b) acc ↔ x ∈ acc ∨ ∃ b ∈ l, x ∈ g b := by
  induction l generalizing acc with
  | nil => simp
  | cons hd tl ih =>
    simp only [List.foldl_cons, ih, List.mem_append, List.mem_cons]
    constructor
    · rintro ((hx | hx) | ⟨b, hb, hx⟩)
      · exact Or.inl hx
      · exact Or.inr ⟨hd, Or.inl rfl, hx⟩
      · exact Or.inr ⟨b, Or.inr hb, hx⟩
    · rintro (hx | ⟨b, hb | hb, hx⟩)
      · exact Or.inl (Or.inl hx)
      · exact Or.inl (Or.inr (hb ▸ hx))
      · exact Or.inr ⟨b, hb, hx⟩

/-- Membership characterization of the per-script scan: a dict is
accepted through its own @type against the three location types; a
top-level list contributes exactly its dict entries typed
Place/LocalBusiness. -/
theorem mem_scriptLocs (sha1_16 : String → String) (source_url now_iso : String)
    (d : Json) (r : LocRecord) :
    r ∈ scriptLocs sha1_16 source_url now_iso d ↔
      (d.isObjB = true ∧ typeIn d LOC_TYPES = true ∧
        parse_json_ld_location sha1_16 d source_url now_iso = some r)
      ∨ ∃ items, d = Json.arr items ∧ ∃ it ∈ items, it.isObjB = true ∧
          typeIn it LOC_LIST_TYPES = true ∧
          parse_json_ld_location sha1_16 it source_url now_iso = some r := by
  cases d with
  | obj fs =>
    simp only [scriptLocs]
    by_cases ht : typeIn (.obj fs) LOC_TYPES = true
    · rw [if_pos ht]
      simp [Json.isObjB, ht, Option.mem_toList, Option.mem_def]
    · rw [if_neg ht]
      simp only [List.not_mem_nil, false_iff]
      rintro (⟨_, htt, _⟩ | ⟨items, heq, _⟩)
      · exact ht htt
      · exact absurd heq (by simp)
  | arr items =>
    have hfold : List.foldl
        (fun acc it =>
          if it.isObjB && typeIn it LOC_LIST_TYPES then
            acc ++ (parse_json_ld_location sha1_16 it source_url now_iso).toList
          else acc) [] items
      = List.foldl
        (fun acc it => acc ++
          (if it.isObjB && typeIn it LOC_LIST_TYPES then
            (parse_json_ld_location sha1_16 it source_url now_iso).toList
          else [])) [] items := by
      refine List.foldl_ext _ _ _ ?_
      intro a it _
      by_cases hc : (it.isObjB && typeIn it LOC_LIST_TYPES) = true
      · simp [hc]
      · simp [hc]
    simp only [scriptLocs, hfold, mem_foldl_append]
    constructor
    · rintro (hx | ⟨it, hit, hr⟩)
      · simp at hx
      · by_cases hc : (it.isObjB && typeIn it LOC_LIST_TYPES) = true
        · rw [if_pos hc] at hr
          simp only [Bool.and_eq_true] at hc
          refine Or.inr ⟨items, rfl, it, hit, hc.1, hc.2, ?_⟩
          simpa [Option.mem_toList, Option.mem_def] using hr
        · rw [if_neg hc] at hr
          simp at hr
    · rintro (⟨hobj, _, _⟩ | ⟨items', heq, it, hit, hobj, htyp, hp⟩)
      · simp [Json.isObjB] at hobj
      · obtain rfl : items' = items := by
          injection heq.symm
        refine Or.inr ⟨it, hit, ?_⟩
        rw [if_pos (by simp [hobj, htyp])]
        simp [Option.mem_toList, Option.mem_def, hp]
  | str s =>
    simp [scriptLocs, Json.isObjB]
  | num n =>
    simp [scriptLocs, Json.isObjB]
  | bool b =>
    simp [scriptLocs, Json.isObjB]
  | null =>
    simp [scriptLocs, Json.isObjB]

theorem mem_harvest_locations_jsonld (sha1_16 : String → String)
    (source_url now_iso : String) (scripts : List (Option Json)) (r : LocRecord) :
    r ∈ harvest_locations_jsonld sha1_16 source_url now_iso scripts
      ↔ ∃ d, some d ∈ scripts ∧ r ∈ scriptLocs sha1_16 source_url now_iso d := by
  have hfold : harvest_locations_jsonld sha1_16 source_url now_iso scripts
      = scripts.foldl
          (fun acc s => acc ++
            (match s with
             | none => []
             | some d => scriptLocs sha1_16 source_url now_iso d)) [] := by
    unfold harvest_locations_jsonld
    refine List.foldl_ext _ _ _ ?_
    intro a s _
    cases s <;> simp
  rw [hfold, mem_foldl_append]
  simp only [List.not_mem_nil, false_or]
  constructor
  · rintro ⟨s, hs, hr⟩
    cases s with
    | none => simp at hr
    | some d => exact ⟨d, hs, hr⟩
  · rintro ⟨d, hd, hr⟩
    exact ⟨some d, hd, hr⟩

/-- C3 amended: the location structured-data pass handles two shapes
only.  A record is extracted from a page's scripts exactly when some
parsed script is itself a dict typed Place, LocalBusiness or
TouristAttraction that parses to the record, or is a bare list with a
dict entry typed Place or LocalBusiness that parses to the record; a
typed object nested in a "@graph" collection is never scanned, and
TouristAttraction entries are not accepted from the bare-list shape. -/
theorem locations_structured_shapes (sha1_16 : String → String)
    (source_url now_iso : String) (scripts : List (Option Json)) (r : LocRecord) :
    r ∈ harvest_locations_jsonld sha1_16 source_url now_iso scripts
      ↔ ∃ d, some d ∈ scripts ∧
          ((d.isObjB = true ∧ typeIn d LOC_TYPES = true ∧
            parse_json_ld_location sha1_16 d source_url now_iso = some r)
           ∨ ∃ items, d = Json.arr items ∧ ∃ it ∈ items, it.isObjB = true ∧
               typeIn it LOC_LIST_TYPES = true ∧
               parse_json_ld_location sha1_16 it source_url now_iso = some r) := by
  rw [mem_harvest_locations_jsonld]
  exact exists_congr fun d => and_congr_right fun _ =>
    mem_scriptLocs sha1_16 source_url now_iso d r

/-- C3 counterexample: a TouristAttraction entry inside a bare list,
and a Place nested in a "@graph" collection, both yield no location
record at all — refuting the claim that all three structured-data
shapes accept all three location types. -/
theorem locations_structured_shapes_counterexample :
    harvest_locations_jsonld (fun s => s) "https://ex.org" "2024-01-01T00:00:00+00:00"
      [some (.arr [.obj [("@type", Json.str "TouristAttraction"), ("name", Json.str "Turm")]])]
      = []
    ∧ harvest_locations_jsonld (fun s => s) "https://ex.org" "2024-01-01T00:00:00+00:00"
      [some (.obj [("@graph",
          Json.arr [Json.obj [("@type", Json.str "Place"), ("name", Json.str "Park")]])])]
      = [] := by
  exact ⟨rfl, rfl⟩

/-- C3 witness: a single dict typed TouristAttraction is accepted and
extracted. -/
theorem locations_structured_shapes_witness :
    (⟨"loc-Turm|München|https://ex.org", "Turm", "München", "location", "",
      "https://ex.org", "https://ex.org", "2024-01-01T00:00:00+00:00", none, none⟩ : LocRecord)
      ∈ harvest_locations_jsonld (fun s => s) "https://ex.org" "2024-01-01T00:00:00+00:00"
          [some (.obj [("@type", Json.str "TouristAttraction"), ("name", Json.str "Turm")])] := by
  refine (locations_structured_shapes (fun s => s) "https://ex.org"
      "2024-01-01T00:00:00+00:00"
      [some (.obj [("@type", Json.str "TouristAttraction"), ("name", Json.str "Turm")])]
      _).mpr ?_
  refine ⟨.obj [("@type", Json.str "TouristAttraction"), ("name", Json.str "Turm")],
    by simp, Or.inl ⟨rfl, rfl, ?_⟩⟩
  decide

theorem digitChar_isDigit (n : Nat) : (digitChar n).isDigit = true := by
  have h : n % 10 < 10 := Nat.mod_lt _ (by norm_num)
  unfold digitChar
  generalize hk : n % 10 = k at h ⊢
  interval_cases k <;> decide

theorem isValidCivilDate_dateIso (y m d : Nat) :
    isValidCivilDate (dateIso y m d) = true := by
  simp [isValidCivilDate, dateIso, digitChar_isDigit]

/-- C8: normalize_date is total — for every input (native datetime,
parseable string, garbage string, or None) it returns a syntactically
valid YYYY-MM-DD civil-date string; unparseable or absent input
defaults to the current UTC date; a datetime input (in particular a
timezone-less one, which the code anchors to UTC before taking the
date) yields its own calendar date, never a local-timezone shift. -/
theorem normalize_date_total (parse : String → Option PyDateTime)
    (now : PyDateTime) (value : NormInput) :
    isValidCivilDate (normalize_date parse now value) = true
    ∧ (∀ s, value = .str s → parse (germanReplace s) = none →
        normalize_date parse now value = dateIso now.year now.month now.day)
    ∧ (value = .noneV → parse (germanReplace "None") = none →
        normalize_date parse now value = dateIso now.year now.month now.day)
    ∧ (∀ v, value = .dt v →
        normalize_date parse now value = dateIso v.year v.month v.day) := by
  refine ⟨?_, ?_, ?_, ?_⟩
  · unfold normalize_date
    cases value with
    | dt v =>
      by_cases htz : v.tz = none <;>
        simp [htz, isValidCivilDate_dateIso]
    | str s =>
      cases hp : parse (germanReplace s) with
      | none =>
        by_cases htz : now.tz = none <;>
          simp [hp, htz, isValidCivilDate_dateIso]
      | some d =>
        by_cases htz : d.tz = none <;>
          simp [hp, htz, isValidCivilDate_dateIso]
    | noneV =>
      cases hp : parse (germanReplace "None") with
      | none =>
        by_cases htz : now.tz = none <;>
          simp [hp, htz, isValidCivilDate_dateIso]
      | some d =>
        by_cases htz : d.tz = none <;>
          simp [hp, htz, isValidCivilDate_dateIso]
  · rintro s rfl hp
    unfold normalize_date
    by_cases htz : now.tz = none <;> simp [hp, htz]
  · rintro rfl hp
    unfold normalize_date
    by_cases htz : now.tz = none <;> simp [hp, htz]
  · rintro v rfl
    unfold normalize_date
    by_cases htz : v.tz = none <;> simp [htz]

/-- C8 witness: a garbage string under a parser that rejects it
normalizes to the current date, rendered as a valid civil-date
string. -/
theorem normalize_date_total_witness :
    normalize_date (fun _ => none) ⟨2024, 5, 7, some 0⟩ (.str "v\xf6llig kaputt")
      = "2024-05-07" := by
  have h := (normalize_date_total (fun _ => none) ⟨2024, 5, 7, some 0⟩
      (.str "v\xf6llig kaputt")).2.1 "v\xf6llig kaputt" rfl rfl
  rw [h]
  decide

theorem head_dropWhile_all (l : List Char) :
    ((l.dropWhile Char.isWhitespace).head?.all fun c => !c.isWhitespace) = true := by
  induction l with
  | nil => rfl
  | cons a t ih =>
    by_cases h : a.isWhitespace = true
    · simpa [List.dropWhile_cons, h] using ih
    · simp [List.dropWhile_cons, h]

theorem dropWhile_eq_self_of_head (l : List Char)
    (h : (l.head?.all fun c => !c.isWhitespace) = true) :
    l.dropWhile Char.isWhitespace = l := by
  cases l with
  | nil => rfl
  | cons a t =>
    simp only [List.head?_cons, Option.all_some, Bool.not_eq_true'] at h
    simp [List.dropWhile_cons, h]

/-- The stripped list has no whitespace at either end. -/
theorem stripChars_cleanEnds (l : List Char) : cleanEnds (stripChars l) = true := by
  unfold stripChars cleanEnds
  rw [List.head?_reverse, List.getLast?_reverse]
  refine Bool.and_eq_true_iff.mpr ⟨?_, ?_⟩
  · cases ht : (l.dropWhile Char.isWhitespace).reverse.dropWhile Char.isWhitespace with
    | nil => rfl
    | cons a t =>
      obtain ⟨u, hu⟩ := List.dropWhile_suffix (l := (l.dropWhile Char.isWhitespace).reverse)
        Char.isWhitespace
      rw [ht] at hu
      have e1 : (a :: t).getLast? = (l.dropWhile Char.isWhitespace).head? := by
        rw [← List.getLast?_reverse, ← hu]
        exact (List.getLast?_append_of_ne_nil u (by simp)).symm
      rw [e1]
      exact head_dropWhile_all l
  · exact head_dropWhile_all _

/-- Stripping is the identity on a list with no whitespace at either
end. -/
theorem stripChars_eq_self (l : List Char) (h : cleanEnds l = true) :
    stripChars l = l := by
  unfold cleanEnds at h
  obtain ⟨h1, h2⟩ := Bool.and_eq_true_iff.mp h
  unfold stripChars
  rw [dropWhile_eq_self_of_head l h1]
  rw [dropWhile_eq_self_of_head l.reverse (by rw [List.head?_reverse]; exact h2)]
  exact List.reverse_reverse l

theorem replaceCR_non_ws (c : Char) (h : c.isWhitespace = false) : replaceCR c = c := by
  unfold replaceCR
  rw [if_neg]
  intro hc
  rw [hc] at h
  exact absurd h (by decide)

theorem replaceLF_non_ws (c : Char) (h : c.isWhitespace = false) : replaceLF c = c := by
  unfold replaceLF
  rw [if_neg]
  intro hc
  rw [hc] at h
  exact absurd h (by decide)

/-- The cleaned list still has no whitespace at either end. -/
theorem cleanChars_cleanEnds (l : List Char) : cleanEnds (cleanChars l) = true := by
  have hs := stripChars_cleanEnds l
  unfold cleanChars
  unfold cleanEnds at hs ⊢
  obtain ⟨h1, h2⟩ := Bool.and_eq_true_iff.mp hs
  rw [List.head?_map, List.head?_map, List.getLast?_map, List.getLast?_map]
  refine Bool.and_eq_true_iff.mpr ⟨?_, ?_⟩
  · cases hh : (stripChars l).head? with
    | none => rfl
    | some c =>
      rw [hh] at h1
      simp only [Option.all_some, Bool.not_eq_true'] at h1
      simp [replaceCR_non_ws c h1, replaceLF_non_ws c h1, h1]
  · cases hh : (stripChars l).getLast? with
    | none => rfl
    | some c =>
      rw [hh] at h2
      simp only [Option.all_some, Bool.not_eq_true'] at h2
      simp [replaceCR_non_ws c h2, replaceLF_non_ws c h2, h2]

/-- The cleaned list contains no carriage returns or line feeds. -/
theorem cleanChars_noCRLF (l : List Char) : noCRLF (cleanChars l) = true := by
  unfold cleanChars noCRLF
  rw [List.all_eq_true]
  intro c hc
  rw [List.mem_map] at hc
  obtain ⟨c1, hc1, rfl⟩ := hc
  rw [List.mem_map] at hc1
  obtain ⟨c0, _, rfl⟩ := hc1
  unfold replaceCR replaceLF
  by_cases h1 : c0 = '\r' <;> by_cases h2 : c0 = '\n' <;> simp [h1, h2]

theorem map_eq_self_of_fix {f : Char → Char} {l : List Char}
    (h : ∀ c ∈ l, f c = c) : l.map f = l := by
  induction l with
  | nil => rfl
  | cons a t ih =>
    simp only [List.map_cons, h a (by simp)]
    rw [ih fun c hc => h c (by simp [hc])]

/-- Cleaning is the identity on a list with clean ends and no CR/LF. -/
theorem cleanChars_eq_self (l : List Char) (he : cleanEnds l = true)
    (hn : noCRLF l = true) : cleanChars l = l := by
  unfold cleanChars
  rw [stripChars_eq_self l he]
  unfold noCRLF at hn
  rw [List.all_eq_true] at hn
  have hcr : l.map replaceCR = l := by
    refine map_eq_self_of_fix fun c hc => ?_
    have := hn c hc
    simp only [Bool.and_eq_true, Bool.not_eq_true', beq_eq_false_iff_ne] at this
    simp [replaceCR, this.1]
  rw [hcr]
  refine map_eq_self_of_fix fun c hc => ?_
  have := hn c hc
  simp only [Bool.and_eq_true, Bool.not_eq_true', beq_eq_false_iff_ne] at this
  simp [replaceLF, this.2]

theorem cleanChars_idem (l : List Char) :
    cleanChars (cleanChars l) = cleanChars l :=
  cleanChars_eq_self _ (cleanChars_cleanEnds l) (cleanChars_noCRLF l)

theorem head?_take (l : List Char) (k : Nat) :
    (l.take k).head? = if k = 0 then none else l.head? := by
  cases l with
  | nil => cases k <;> simp
  | cons a t => cases k <;> simp [List.take]

/-- Cleaning is the identity on a truncated clean list with the
ellipsis marker appended. -/
theorem trunc_clean (t : List Char) (k : Nat) (he : cleanEnds t = true)
    (hn : noCRLF t = true) :
    cleanChars (t.take k ++ ['…']) = t.take k ++ ['…'] := by
  apply cleanChars_eq_self
  · unfold cleanEnds
    refine Bool.and_eq_true_iff.mpr ⟨?_, ?_⟩
    · by_cases hk : t.take k = []
      · rw [hk]
        rfl
      · obtain ⟨a, t', ha⟩ := List.exists_cons_of_ne_nil hk
        rw [ha]
        simp only [List.cons_append, List.head?_cons, Option.all_some]
        have h1 : t.head? = some a := by
          have h2 := head?_take t k
          rw [ha] at h2
          by_cases hk0 : k = 0
          · rw [hk0] at ha
            simp at ha
          · rw [if_neg hk0] at h2
            exact h2.symm
        unfold cleanEnds at he
        obtain ⟨he1, _⟩ := Bool.and_eq_true_iff.mp he
        rw [h1] at he1
        simpa using he1
    · rw [List.getLast?_concat]
      rfl
  · unfold noCRLF
    rw [List.all_eq_true]
    intro c hc
    rw [List.mem_append] at hc
    rcases hc with hc | hc
    · unfold noCRLF at hn
      exact (List.all_eq_true.mp hn) c (List.take_subset _ _ hc)
    · simp only [List.mem_singleton] at hc
      subst hc
      rfl

/-- C9 amended: short (the truncate operation) is idempotent — applying
it twice with the same limit equals applying it once — but an
already-short string (length at most the limit) is returned unchanged
only when it is already clean: no leading or trailing whitespace and no
CR/LF characters.  Otherwise even an under-limit string is modified by
the strip-and-replace pass. -/
theorem short_idempotent_and_noop_on_clean (text : String) (limit : Nat) :
    short (short text limit) limit = short text limit
    ∧ (cleanEnds text.toList = true → noCRLF text.toList = true →
        text.toList.length ≤ limit → short text limit = text) := by
  constructor
  · by_cases hle : (cleanChars text.toList).length ≤ limit
    · have h1 : short text limit = ⟨cleanChars text.toList⟩ := by
        unfold short
        rw [if_pos hle]
      rw [h1]
      unfold short
      have htl : (⟨cleanChars text.toList⟩ : String).toList = cleanChars text.toList := rfl
      rw [htl, cleanChars_idem]
      rw [if_pos hle]
    · by_cases h0 : limit = 0
      · subst h0
        have ht1 : 1 ≤ (cleanChars text.toList).length := by omega
        have h1 : short text 0
            = ⟨(cleanChars text.toList).take ((cleanChars text.toList).length - 1) ++ ['…']⟩ := by
          unfold short
          rw [if_neg hle, if_pos rfl]
        rw [h1]
        unfold short
        have htl : (⟨(cleanChars text.toList).take ((cleanChars text.toList).length - 1)
                      ++ ['…']⟩ : String).toList
            = (cleanChars text.toList).take ((cleanChars text.toList).length - 1) ++ ['…'] := rfl
        rw [htl]
        rw [trunc_clean _ _ (cleanChars_cleanEnds text.toList) (cleanChars_noCRLF text.toList)]
        have hlen : ((cleanChars text.toList).take ((cleanChars text.toList).length - 1)
            ++ ['…']).length = (cleanChars text.toList).length := by
          rw [List.length_append, List.length_take, List.length_singleton]
          have hmin : min ((cleanChars text.toList).length - 1) (cleanChars text.toList).length
              = (cleanChars text.toList).length - 1 := Nat.min_eq_left (by omega)
          rw [hmin]
          omega
        rw [hlen]
        rw [if_neg (by omega), if_pos rfl]
        congr 1
        have hl2 : ((cleanChars text.toList).take
            ((cleanChars text.toList).length - 1)).length
            = (cleanChars text.toList).length - 1 := by
          rw [List.length_take]
          exact Nat.min_eq_left (by omega)
        rw [List.take_left' hl2]
      · have hlim1 : 1 ≤ limit := by omega
        have h1 : short text limit
            = ⟨(cleanChars text.toList).take (limit - 1) ++ ['…']⟩ := by
          unfold short
          rw [if_neg hle, if_neg h0]
        rw [h1]
        unfold short
        have htl : (⟨(cleanChars text.toList).take (limit - 1) ++ ['…']⟩ : String).toList
            = (cleanChars text.toList).take (limit - 1) ++ ['…'] := rfl
        rw [htl]
        rw [trunc_clean _ _ (cleanChars_cleanEnds text.toList) (cleanChars_noCRLF text.toList)]
        have hlen : ((cleanChars text.toList).take (limit - 1) ++ ['…']).length = limit := by
          rw [List.length_append, List.length_take, List.length_singleton]
          have hmin : min (limit - 1) (cleanChars text.toList).length = limit - 1 :=
            Nat.min_eq_left (by omega)
          rw [hmin]
          omega
        rw [hlen]
        rw [if_pos le_rfl]
  · intro he hn hle
    unfold short
    rw [cleanChars_eq_self text.toList he hn]
    rw [if_pos hle]
    rfl

/-- C9 counterexample: a string of length 3 ≤ 10 is not returned
unchanged — truncating an already-short string is not a no-op. -/
theorem short_noop_counterexample :
    (" a " : String).toList.length ≤ 10 ∧ short " a " 10 = "a" ∧ short " a " 10 ≠ " a " := by
  refine ⟨by decide, ?_, ?_⟩ <;> decide

/-- C9 witness: a clean under-limit string is unchanged, and applying
short twice equals applying it once. -/
theorem short_idempotent_witness :
    short "Zoo Besuch" 20 = "Zoo Besuch"
    ∧ short (short "Theater \r\n Abend" 5) 5 = short "Theater \r\n Abend" 5 := by
  constructor
  · exact (short_idempotent_and_noop_on_clean "Zoo Besuch" 20).2 (by decide) (by decide) (by decide)
  · exact (short_idempotent_and_noop_on_clean "Theater \r\n Abend" 5).1
